import Mathlib

/-!
Shallow embedding of the cloud/local filesystem layer of
src/filesystem.cc (triton core), together with proofs about the
credential store, backend factory, object-store listing logic, and the
localized-directory resource.

Strings are modelled as lists of characters (C++ std::string is a char
sequence).  Status returns are modelled with Option/Except; the status
code taxonomy of the source is kept where a claim depends on it.
-/

namespace TritonFS

/-- A C++ std::string, modelled as its character sequence. -/
abbrev Str := List Char

/-- Character sequence of a Lean string literal (used for concrete inputs). -/
def str (s : String) : Str := s.data

/-! ### String helpers from the source

std::string::find(needle) returns the smallest index at which needle
occurs in the haystack (npos when absent, modelled as none);
find(needle, start) restricts the search to indices at or above start. -/

/-- std::string::find: first index where needle occurs, none for npos. -/
def strFind (hay needle : Str) : Option Nat :=
  (List.range (hay.length + 1)).find? (fun i => needle.isPrefixOf (hay.drop i))

/-- std::string::find with a start position. -/
def strFindFrom (hay needle : Str) (start : Nat) : Option Nat :=
  (strFind (hay.drop start) needle).map (· + start)

/-- AppendSlash (src/filesystem.cc): append a trailing slash unless the
name is empty or already ends in a slash. -/
def appendSlash (name : Str) : Str :=
  if name = [] ∨ name.getLast? = some '/' then name else name ++ ['/']

/-! ### Credential matching (FileSystemManager, src/filesystem.cc)

A credential table is a list of (name, payload) pairs.  SortCredential
sorts it with comparator i.first.size() >= j.first.size(), i.e. by
descending name length.  GetLongestMatchingCredential scans the table
in order and returns the first entry whose name is a prefix of the
path (path.rfind(name, 0) == 0); NOT_FOUND (none) when no entry
matches. -/

/-- Comparator used by FileSystemManager::SortCredential:
i.first.size() >= j.first.size(). -/
def credLe {α : Type} (i j : Str × α) : Prop := j.1.length ≤ i.1.length

instance {α : Type} : DecidableRel (credLe (α := α)) := fun _ _ => Nat.decLe _ _

instance {α : Type} : IsTotal (Str × α) credLe :=
  ⟨fun i j => (Nat.le_total j.1.length i.1.length).imp id id⟩

instance {α : Type} : IsTrans (Str × α) credLe :=
  ⟨fun _ _ _ h1 h2 => Nat.le_trans h2 h1⟩

/-- FileSystemManager::SortCredential: std::sort with the descending
name-length comparator. -/
def sortCredential {α : Type} (credential : List (Str × α)) : List (Str × α) :=
  List.insertionSort credLe credential

/-- The invariant the source documents for credential tables:
"credentials should be sorted in descending name length order". -/
def sortedDescByNameLength {α : Type} (credentials : List (Str × α)) : Prop :=
  List.Sorted credLe credentials

instance {α : Type} (credentials : List (Str × α)) :
    Decidable (sortedDescByNameLength credentials) := by
  unfold sortedDescByNameLength List.Sorted
  infer_instance

/-- FileSystemManager::GetLongestMatchingCredential: scan the table in
order, return the first entry whose name is a prefix of the path
(!path.rfind(name, 0)); none models the NOT_FOUND status. -/
def getLongestMatchingCredentialEntry {α : Type}
    (credentials : List (Str × α)) (path : Str) : Option (Str × α) :=
  match credentials with
  | [] => none
  | c :: rest =>
      if c.1.isPrefixOf path then some c
      else getLongestMatchingCredentialEntry rest path

/-- The credential payload the source copies out of the matched entry. -/
def getLongestMatchingCredential {α : Type}
    (credentials : List (Str × α)) (path : Str) : Option α :=
  (getLongestMatchingCredentialEntry credentials path).map (·.2)

/-! ### Credential store and backend factory (FileSystemManager)

FileSystemManager::LoadCredential(flush_cache):
- holds the mutex (sequential model), then
- if is_credential_cached_ and not flush_cache: Status(ALREADY_EXISTS, "Cached");
- else if TRITON_CLOUD_CREDENTIAL_PATH is set: read and JSON-parse the
  file (errors propagate, cache flag and tables untouched), rebuild the
  per-backend tables with SortCredential, set is_credential_cached_,
  Status::Success;
- else Status(UNAVAILABLE, "Use legacy credential").

The per-backend tables are abstracted to a single table over an
abstract payload type; the environment is fixed for a run. -/

/-- Status codes LoadCredential / GetFileSystem distinguish. -/
inductive LoadStatus : Type where
  | success : LoadStatus
  | alreadyExists : LoadStatus
  | unavailable : LoadStatus
  | internalError : LoadStatus
  deriving DecidableEq, Repr

/-- The process environment seen by LoadCredential:
none: TRITON_CLOUD_CREDENTIAL_PATH unset; some none: the variable is
set but the file fails to read or parse; some (some table): the file
parses to the given (unsorted) credential table. -/
structure CredEnv (α : Type) : Type where
  credFile : Option (Option (List (Str × α)))

/-- The static state of FileSystemManager: the cached flag and the
credential table. -/
structure CredState (α : Type) : Type where
  isCredentialCached : Bool
  credential : List (Str × α)
  deriving DecidableEq

/-- FileSystemManager::LoadCredential.  Returns the status, the state
after the call, and whether the call read and parsed the credential
file (the file is touched exactly on the non-cached, env-set paths). -/
def loadCredential {α : Type} (env : CredEnv α) (flushCache : Bool)
    (s : CredState α) : LoadStatus × CredState α × Bool :=
  if s.isCredentialCached && !flushCache then
    (LoadStatus.alreadyExists, s, false)
  else
    match env.credFile with
    | some (some table) =>
        (LoadStatus.success, ⟨true, sortCredential table⟩, true)
    | some none =>
        -- read or parse failure propagates; flag and table unchanged
        (LoadStatus.internalError, s, true)
    | none => (LoadStatus.unavailable, s, false)

/-- Outcome of one FileSystemManager::GetFileSystem(path) resolution:
ok: a validated backend was produced;
errMatch: GetLongestMatchingCredential's NOT_FOUND was returned;
errClient: the backend's CheckClient failure was returned;
errLoad: a LoadCredential failure was returned;
outOfFuel: the recursion exceeded the modelled depth bound. -/
inductive ResolveOutcome : Type where
  | ok : ResolveOutcome
  | errMatch : ResolveOutcome
  | errClient : ResolveOutcome
  | errLoad : ResolveOutcome
  | outOfFuel : ResolveOutcome
  deriving DecidableEq, Repr

/-- Trace of a resolution: its outcome and how many flush-reloads
(LoadCredential(true) calls inside ReturnErrorOrReload) it performed. -/
structure ResolveTrace : Type where
  outcome : ResolveOutcome
  reloads : Nat
  deriving DecidableEq, Repr

/-- FileSystemManager::ReturnErrorOrReload: if the load status was
ALREADY_EXISTS return the error status; otherwise LoadCredential(true)
(its status discarded) and retry GetFileSystem, here passed in as the
retry continuation.  The reload counter of the retry's trace is bumped
to record the flush-reload this call performed. -/
def returnErrorOrReload {α : Type} (env : CredEnv α)
    (loadStatus : LoadStatus) (errorStatus : ResolveOutcome)
    (retry : CredState α → ResolveTrace × CredState α)
    (s : CredState α) : ResolveTrace × CredState α :=
  if loadStatus = LoadStatus.alreadyExists then (⟨errorStatus, 0⟩, s)
  else
    let s2 := (loadCredential env true s).2.1
    let r := retry s2
    (⟨r.1.outcome, r.1.reloads + 1⟩, r.2)

/-- FileSystemManager::GetFileSystem(path) for a cloud path, with
explicit fuel standing for the recursion depth: call
LoadCredential(false); on SUCCESS or ALREADY_EXISTS match the table
(GetLongestMatchingCredential) and validate the constructed backend
(CheckClient, modelled by validate), delegating both failures to
ReturnErrorOrReload; on UNAVAILABLE construct from legacy environment
variables (modelled by legacyOk); any other load status is returned as
is. -/
def getFileSystemAux {α : Type} (validate : α → Bool) (legacyOk : Bool)
    (env : CredEnv α) (path : Str) :
    Nat → CredState α → ResolveTrace × CredState α
  | 0, s => (⟨ResolveOutcome.outOfFuel, 0⟩, s)
  | fuel + 1, s =>
      let r := loadCredential env false s
      let ls := r.1
      let s1 := r.2.1
      if ls = LoadStatus.success ∨ ls = LoadStatus.alreadyExists then
        match getLongestMatchingCredential s1.credential path with
        | none =>
            returnErrorOrReload env ls ResolveOutcome.errMatch
              (getFileSystemAux validate legacyOk env path fuel) s1
        | some cred =>
            if validate cred then (⟨ResolveOutcome.ok, 0⟩, s1)
            else
              returnErrorOrReload env ls ResolveOutcome.errClient
                (getFileSystemAux validate legacyOk env path fuel) s1
      else if ls = LoadStatus.unavailable then
        (⟨if legacyOk then ResolveOutcome.ok else ResolveOutcome.errClient, 0⟩,
          s1)
      else
        (⟨ResolveOutcome.errLoad, 0⟩, s1)

/-! ### Object-store listing (GCSFileSystem, S3FileSystem, ASFileSystem)

GCSFileSystem::GetDirectoryContents and S3FileSystem::GetDirectoryContents
ask the provider for all keys with prefix full_dir = AppendSlash(dir_path)
(a recursive prefix listing, no delimiter), skip a key equal to full_dir,
and for every other key insert
name.substr(item_start, item_end - item_start) into a std::set, where
item_start = name.find(full_dir) + full_dir.size() and
item_end = name.find("/", item_start) (npos reaching the end of the key,
as int(-1) makes the count wrap past the end).

ASFileSystem::ListDirectory asks list_blobs_segmented(container, "/", "",
full_dir) — a delimiter listing that returns each blob directly under the
prefix as itself and each deeper key collapsed to its directory prefix up
to and including the first slash after full_dir — and applies the same
substring computation to every returned item name, with no skip of a key
equal to full_dir.

The provider listings are modelled over the full key list of the
bucket/container. -/

/-- The child-name extraction shared by the three listings:
substr(item_start, item_end - item_start) with
item_start = find(full_dir) + full_dir.size() and
item_end = find("/", item_start).  The callers only apply it to names
that have fullDir as a prefix (the provider listing guarantees this),
where find(full_dir) = 0 (strFind_eq_zero_of_isPrefixOf below), so item_start is
fullDir.length. -/
def extractItem (fullDir name : Str) : Str :=
  let itemStart := fullDir.length
  match strFindFrom name ['/'] itemStart with
  | some itemEnd => (name.drop itemStart).take (itemEnd - itemStart)
  | none => name.drop itemStart

/-- GCSFileSystem::GetDirectoryContents over the bucket's keys. -/
def gcsGetDirectoryContents (keys : List Str) (dirPath : Str) : Finset Str :=
  let fullDir := appendSlash dirPath
  ((keys.filter (fullDir.isPrefixOf ·)).filter (· ≠ fullDir)).foldl
    (fun contents name => insert (extractItem fullDir name) contents) ∅

/-- S3FileSystem::GetDirectoryContents over the bucket's keys (the same
skip-and-extract loop as GCS). -/
def s3GetDirectoryContents (keys : List Str) (dirPath : Str) : Finset Str :=
  let fullDir := appendSlash dirPath
  ((keys.filter (fullDir.isPrefixOf ·)).filter (· ≠ fullDir)).foldl
    (fun contents name => insert (extractItem fullDir name) contents) ∅

/-- The item names a delimiter listing
list_blobs_segmented(container, "/", "", pre) yields over the
container's keys: each key under the prefix appears as itself when it
has no further slash, and collapsed to its directory prefix up to and
including the first slash past the prefix otherwise (duplicates
collapsed by the service; the callers all insert into sets, so the
duplicates a list model keeps are harmless). -/
def asDelimiterItems (keys : List Str) (pre : Str) : List Str :=
  (keys.filter (pre.isPrefixOf ·)).map (fun k =>
    match strFindFrom k ['/'] pre.length with
    | some i => k.take (i + 1)
    | none => k)

/-- ASFileSystem::ListDirectory with the GetDirectoryContents callback:
every item of the delimiter listing under full_dir contributes its
extracted child name — including an item equal to full_dir itself
(nothing skips it). -/
def asGetDirectoryContents (keys : List Str) (dirPath : Str) : Finset Str :=
  let fullDir := appendSlash dirPath
  ((asDelimiterItems keys fullDir).map (extractItem fullDir)).toFinset

/-! ### Object-store IsDirectory (C4)

GCSFileSystem::IsDirectory: error if the bucket does not exist; true for
an empty object path (root case); otherwise true iff listing with prefix
AppendSlash(object_path) yields at least one object.
S3FileSystem::IsDirectory: the same shape (HeadBucket, root case,
ListObjects with the slashed prefix).
ASFileSystem::IsDirectory: no container check and no root case; true iff
list_blobs_segmented(container, "/", "", object_path, 1) — the RAW
object path, no trailing slash appended — returns at least one item. -/

/-- Error cases the cloud models surface. -/
inductive CloudErr : Type where
  | bucketErr : CloudErr
  | metaErr : CloudErr
  | dirNotExist : CloudErr
  deriving DecidableEq, Repr

/-- GCSFileSystem::IsDirectory over the bucket's keys. -/
def gcsIsDirectory (keys : List Str) (bucketExists : Bool)
    (objectPath : Str) : Except CloudErr Bool :=
  if !bucketExists then Except.error CloudErr.bucketErr
  else if objectPath = [] then Except.ok true
  else Except.ok (keys.any ((appendSlash objectPath).isPrefixOf ·))

/-- S3FileSystem::IsDirectory over the bucket's keys. -/
def s3IsDirectory (keys : List Str) (bucketExists : Bool)
    (objectPath : Str) : Except CloudErr Bool :=
  if !bucketExists then Except.error CloudErr.bucketErr
  else if objectPath = [] then Except.ok true
  else Except.ok (keys.any ((appendSlash objectPath).isPrefixOf ·))

/-- ASFileSystem::IsDirectory over the container's keys: a one-item
delimiter listing under the raw object path is non-empty. -/
def asIsDirectory (keys : List Str) (objectPath : Str) : Bool :=
  !(asDelimiterItems keys objectPath).isEmpty

/-- The directory test the spec describes, written from the spec's
words for comparison: true iff a listing under the object path
normalized with a trailing slash returns at least one entry, or the
bucket/container exists and the object path is empty. -/
def isDirectorySpecModel (keys : List Str) (containerExists : Bool)
    (objectPath : Str) : Bool :=
  (containerExists && decide (objectPath = [])) ||
    keys.any ((appendSlash objectPath).isPrefixOf ·)

/-! ### FileExists and the LocalizeDirectory precondition (C6)

GCSFileSystem::FileExists: GetObjectMetadata on the key (no bucket
check); if the object exists report true, else fall back to IsDirectory.
S3FileSystem::FileExists: IsDirectory first; if not a directory,
HeadObject on the key (RESOURCE_NOT_FOUND leaves exists false).
ASFileSystem::FileExists: the same one-item delimiter listing under the
raw object path as ASFileSystem::IsDirectory.

All three LocalizeDirectory bodies start with the same guard:
exists := FileExists(path); is_dir := exists ? IsDirectory(path) : false;
if (!is_dir) return INTERNAL "directory does not exist at <path>";
then create the temporary directory and mirror the tree.  The guard is
modelled as a check returning ok () exactly when the body proceeds past
the guard. -/

/-- GCSFileSystem::FileExists over the bucket's keys. -/
def gcsFileExists (keys : List Str) (bucketExists : Bool)
    (objectPath : Str) : Except CloudErr Bool :=
  if objectPath ∈ keys then Except.ok true
  else gcsIsDirectory keys bucketExists objectPath

/-- S3FileSystem::FileExists over the bucket's keys. -/
def s3FileExists (keys : List Str) (bucketExists : Bool)
    (objectPath : Str) : Except CloudErr Bool :=
  match s3IsDirectory keys bucketExists objectPath with
  | Except.error e => Except.error e
  | Except.ok true => Except.ok true
  | Except.ok false => Except.ok (decide (objectPath ∈ keys))

/-- ASFileSystem::FileExists over the container's keys (the same
listing call as ASFileSystem::IsDirectory). -/
def asFileExists (keys : List Str) (objectPath : Str) : Bool :=
  !(asDelimiterItems keys objectPath).isEmpty

/-- The guard of GCSFileSystem::LocalizeDirectory. -/
def gcsLocalizeCheck (keys : List Str) (bucketExists : Bool)
    (objectPath : Str) : Except CloudErr Unit :=
  match gcsFileExists keys bucketExists objectPath with
  | Except.error e => Except.error e
  | Except.ok ex =>
      match (if ex then gcsIsDirectory keys bucketExists objectPath
             else Except.ok false) with
      | Except.error e => Except.error e
      | Except.ok isDir =>
          if isDir then Except.ok () else Except.error CloudErr.dirNotExist

/-- The guard of S3FileSystem::LocalizeDirectory. -/
def s3LocalizeCheck (keys : List Str) (bucketExists : Bool)
    (objectPath : Str) : Except CloudErr Unit :=
  match s3FileExists keys bucketExists objectPath with
  | Except.error e => Except.error e
  | Except.ok ex =>
      match (if ex then s3IsDirectory keys bucketExists objectPath
             else Except.ok false) with
      | Except.error e => Except.error e
      | Except.ok isDir =>
          if isDir then Except.ok () else Except.error CloudErr.dirNotExist

/-- The guard of ASFileSystem::LocalizeDirectory. -/
def asLocalizeCheck (keys : List Str) (objectPath : Str) :
    Except CloudErr Unit :=
  let ex := asFileExists keys objectPath
  let isDir := if ex then asIsDirectory keys objectPath else false
  if isDir then Except.ok () else Except.error CloudErr.dirNotExist

/-! ### FileModificationTime (C7)

LocalFileSystem::FileModificationTime: stat the path (error when stat
fails) and return st_mtim in nanoseconds — the S_ISDIR bit of the stat
result is never consulted, directories get their real mtime.
GCSFileSystem::FileModificationTime and
S3FileSystem::FileModificationTime: if IsDirectory, report 0; else read
the object metadata (GCS updated() already in nanoseconds; S3
GetLastModified().Millis() * NANOS_PER_MILLIS).
ASFileSystem::FileModificationTime: get_blob_property on the raw path
(error when errno is set, which is what happens for a pseudo-directory
with no blob at the path) and convert last_modified from time_t seconds
to nanoseconds — no directory special case at all. -/

/-- LocalFileSystem::FileModificationTime; the stat result is modelled
as none (stat failed) or some (S_ISDIR bit, st_mtim in nanoseconds). -/
def localFileModificationTime (statResult : Option (Bool × Int)) :
    Except CloudErr Int :=
  match statResult with
  | none => Except.error CloudErr.metaErr
  | some (_, mtimeNs) => Except.ok mtimeNs

/-- GCSFileSystem::FileModificationTime over the bucket's objects,
each a (key, updated-time-in-nanoseconds) pair. -/
def gcsFileModificationTime (objects : List (Str × Int))
    (bucketExists : Bool) (objectPath : Str) : Except CloudErr Int :=
  match gcsIsDirectory (objects.map (·.1)) bucketExists objectPath with
  | Except.error e => Except.error e
  | Except.ok true => Except.ok 0
  | Except.ok false =>
      match objects.lookup objectPath with
      | some updatedNs => Except.ok updatedNs
      | none => Except.error CloudErr.metaErr

/-- S3FileSystem::FileModificationTime over the bucket's objects, each
a (key, last-modified-in-milliseconds) pair; NANOS_PER_MILLIS scales
the HeadObject result. -/
def s3FileModificationTime (objects : List (Str × Int))
    (bucketExists : Bool) (objectPath : Str) : Except CloudErr Int :=
  match s3IsDirectory (objects.map (·.1)) bucketExists objectPath with
  | Except.error e => Except.error e
  | Except.ok true => Except.ok 0
  | Except.ok false =>
      match objects.lookup objectPath with
      | some lastModifiedMillis => Except.ok (lastModifiedMillis * 1000000)
      | none => Except.error CloudErr.metaErr

/-- ASFileSystem::FileModificationTime over the container's blobs, each
a (name, last-modified-in-time_t-seconds) pair. -/
def asFileModificationTime (blobs : List (Str × Int)) (objectPath : Str) :
    Except CloudErr Int :=
  match blobs.lookup objectPath with
  | some lastModifiedSec => Except.ok (lastModifiedSec * 1000000000)
  | none => Except.error CloudErr.metaErr

/-! ### GetFileSystemType (C8) — the path classifier -/

/-- FileSystemType (filesystem.h). -/
inductive FileSystemType : Type where
  | LOCAL : FileSystemType
  | GCS : FileSystemType
  | S3 : FileSystemType
  | AS : FileSystemType
  deriving DecidableEq, Repr

/-- GetFileSystemType (src/filesystem.cc): INVALID_ARG on the empty
path; otherwise test the literal scheme prefixes gs://, s3://, as://
with rfind(prefix, 0) in that order and fall back to LOCAL. -/
def getFileSystemType (path : Str) : Except Unit FileSystemType :=
  if path = [] then Except.error ()
  else if (str "gs://").isPrefixOf path then Except.ok FileSystemType.GCS
  else if (str "s3://").isPrefixOf path then Except.ok FileSystemType.S3
  else if (str "as://").isPrefixOf path then Except.ok FileSystemType.AS
  else Except.ok FileSystemType.LOCAL

/-! ### LocalizedDirectory (C9)

LocalizedDirectory (filesystem.h) carries the original path and an
optional local path (empty string = absent).
LocalFileSystem::LocalizeDirectory constructs
LocalizedDirectory(path) — local_path_ empty, nothing copied.
LocalizedDirectory::~LocalizedDirectory calls
DeleteDirectory(local_path_) — a recursive delete of the temporary
tree — exactly when local_path_ is non-empty.  The local filesystem is
modelled as its list of paths, and the recursive delete as removing
every path under the deleted root. -/

structure LocalizedDirectory : Type where
  path : Str
  localPath : Str
  deriving DecidableEq

/-- LocalFileSystem::LocalizeDirectory: use the directory in place —
LocalizedDirectory(path) with no local path and no copying. -/
def localLocalizeDirectory (path : Str) : LocalizedDirectory :=
  ⟨path, []⟩

/-- The effect of LocalFileSystem::DeleteDirectory(root) on the local
filesystem: every path under root disappears. -/
def deleteDirectoryModel (world : List Str) (root : Str) : List Str :=
  world.filter (fun p => !(root.isPrefixOf p))

/-- The effect of LocalizedDirectory::~LocalizedDirectory on the local
filesystem: recursively delete local_path_ when it is non-empty,
otherwise do nothing. -/
def releaseLocalizedDirectory (world : List Str)
    (ld : LocalizedDirectory) : List Str :=
  if ld.localPath = [] then world
  else deleteDirectoryModel world ld.localPath

/-! ### The public GetDirectoryFiles entry point (C10) -/

/-- GetDirectoryFiles (src/filesystem.cc, public wrapper): collect the
backend's file set, then insert every name f with
(f[0] != '.') || (!skip_hidden_files) into the result.  C++
std::string::operator[] at index 0 of an empty string reads the
terminating NUL, modelled by headD with the NUL character. -/
def getDirectoryFilesPublic (allFiles : List Str)
    (skipHiddenFiles : Bool) : Finset Str :=
  (allFiles.filter
    (fun f => (f.headD (Char.ofNat 0) != '.') || !skipHiddenFiles)).toFinset

/-! ### Theorems -/

/-! ### C1 helper lemmas -/

theorem isPrefixOfIff (l1 l2 : Str) : l1.isPrefixOf l2 = true ↔ l1 <+: l2 :=
  List.isPrefixOf_iff_prefix

theorem prefixComparable {l1 l2 l3 : Str} (h1 : l1 <+: l3) (h2 : l2 <+: l3)
    (h : l1.length ≤ l2.length) : l1 <+: l2 :=
  List.prefix_of_prefix_length_le h1 h2 h

theorem sortCredential_sorted {α : Type} (credentials : List (Str × α)) :
    sortedDescByNameLength (sortCredential credentials) :=
  List.sorted_insertionSort credLe credentials

theorem getLongestMatchingCredentialEntry_mem {α : Type}
    (credentials : List (Str × α)) (path : Str) (e : Str × α)
    (h : getLongestMatchingCredentialEntry credentials path = some e) :
    e ∈ credentials ∧ e.1 <+: path := by
  induction credentials with
  | nil => simp [getLongestMatchingCredentialEntry] at h
  | cons c rest ih =>
      by_cases hc : c.1.isPrefixOf path
      · simp [getLongestMatchingCredentialEntry, hc] at h
        subst h
        exact ⟨List.mem_cons_self _ _, (isPrefixOfIff _ _).mp hc⟩
      · simp [getLongestMatchingCredentialEntry, hc] at h
        rcases ih h with ⟨hmem, hpre⟩
        exact ⟨List.mem_cons_of_mem _ hmem, hpre⟩

theorem getLongestMatchingCredentialEntry_eq_none_iff {α : Type}
    (credentials : List (Str × α)) (path : Str) :
    getLongestMatchingCredentialEntry credentials path = none ↔
      ∀ e ∈ credentials, ¬ e.1 <+: path := by
  induction credentials with
  | nil => simp [getLongestMatchingCredentialEntry]
  | cons c rest ih =>
      simp only [getLongestMatchingCredentialEntry]
      by_cases hc : c.1.isPrefixOf path = true
      · rw [if_pos hc]
        constructor
        · intro h
          exact Option.noConfusion h
        · intro h
          exact absurd ((isPrefixOfIff _ _).mp hc)
            (h c (List.mem_cons_self _ _))
      · rw [if_neg hc, ih]
        constructor
        · intro h e he
          rcases List.mem_cons.mp he with he | he
          · subst he
            exact fun hp => hc ((isPrefixOfIff _ _).mpr hp)
          · exact h e he
        · intro h e he
          exact h e (List.mem_cons_of_mem _ he)

theorem getLongestMatchingCredentialEntry_longest {α : Type}
    (credentials : List (Str × α)) (path : Str)
    (hsorted : sortedDescByNameLength credentials) (e : Str × α)
    (h : getLongestMatchingCredentialEntry credentials path = some e) :
    ∀ e' ∈ credentials, e'.1 <+: path → e'.1 <+: e.1 := by
  induction credentials with
  | nil => simp [getLongestMatchingCredentialEntry] at h
  | cons c rest ih =>
      rcases List.sorted_cons.mp hsorted with ⟨hhead, htail⟩
      by_cases hc : c.1.isPrefixOf path
      · simp [getLongestMatchingCredentialEntry, hc] at h
        subst h
        intro e' he' hpre'
        rcases List.mem_cons.mp he' with he' | he'
        · subst he'
          exact List.prefix_refl _
        · exact prefixComparable hpre'
            ((isPrefixOfIff _ _).mp hc) (hhead e' he')
      · simp [getLongestMatchingCredentialEntry, hc] at h
        intro e' he' hpre'
        rcases List.mem_cons.mp he' with he' | he'
        · subst he'
          exact absurd ((isPrefixOfIff _ _).mpr hpre') hc
        · exact ih htail h e' he' hpre'

/-- Claim C1: for every credential table sorted in descending order of
entry-name length and every stripped path, GetLongestMatchingCredential
returns an entry of the table whose name is a prefix of the path and is
the longest such name (every other matching name is a prefix of it, so
never a shorter matching name is returned), and it reports NOT_FOUND
(none) if and only if no entry name is a prefix of the path. -/
theorem getLongestMatchingCredential_spec {α : Type}
    (credentials : List (Str × α)) (path : Str)
    (hsorted : sortedDescByNameLength credentials) :
    (∀ e, getLongestMatchingCredentialEntry credentials path = some e →
        e ∈ credentials ∧ e.1 <+: path ∧
        (∀ e' ∈ credentials, e'.1 <+: path →
          e'.1 <+: e.1 ∧ e'.1.length ≤ e.1.length)) ∧
    (getLongestMatchingCredential credentials path = none ↔
        ∀ e ∈ credentials, ¬ e.1 <+: path) := by
  constructor
  · intro e he
    rcases getLongestMatchingCredentialEntry_mem credentials path e he with
      ⟨hmem, hpre⟩
    refine ⟨hmem, hpre, fun e' he' hpre' => ?_⟩
    have hp := getLongestMatchingCredentialEntry_longest credentials path
      hsorted e he e' he' hpre'
    exact ⟨hp, hp.length_le⟩
  · rw [getLongestMatchingCredential, Option.map_eq_none']
    exact getLongestMatchingCredentialEntry_eq_none_iff credentials path

/-- Witness for C1 at a concrete sorted table and path: the table
[("gs://bucket/sub", 0), ("gs://bucket", 1), ("", 2)] is sorted by
descending name length, and matching path "gs://bucket/sub/x" (already
stripped of the scheme in the caller) returns the longest matching
entry. -/
theorem getLongestMatchingCredential_spec_witness :
    sortedDescByNameLength
      [(str "bucket/sub", (0 : Nat)), (str "bucket", 1), (str "", 2)] ∧
    getLongestMatchingCredentialEntry
      [(str "bucket/sub", (0 : Nat)), (str "bucket", 1), (str "", 2)]
      (str "bucket/sub/x") = some (str "bucket/sub", 0) ∧
    (str "bucket", (1 : Nat)).1 <+: (str "bucket/sub", (0 : Nat)).1 := by
  have hs : sortedDescByNameLength
      [(str "bucket/sub", (0 : Nat)), (str "bucket", 1), (str "", 2)] := by
    decide
  have h := getLongestMatchingCredential_spec
    [(str "bucket/sub", (0 : Nat)), (str "bucket", 1), (str "", 2)]
    (str "bucket/sub/x") hs
  have heq : getLongestMatchingCredentialEntry
      [(str "bucket/sub", (0 : Nat)), (str "bucket", 1), (str "", 2)]
      (str "bucket/sub/x") = some (str "bucket/sub", 0) := by decide
  refine ⟨hs, heq, ?_⟩
  exact ((h.1 _ heq).2.2 (str "bucket", 1) (by decide) (by decide)).1

/-! ### C2 / C5 lemmas and theorems -/

theorem getFileSystemAux_cached {α : Type} (validate : α → Bool)
    (legacyOk : Bool) (env : CredEnv α) (path : Str) (fuel : Nat)
    (s : CredState α) (h : s.isCredentialCached = true) :
    getFileSystemAux validate legacyOk env path (fuel + 1) s =
      match getLongestMatchingCredential s.credential path with
      | none => (⟨ResolveOutcome.errMatch, 0⟩, s)
      | some cred =>
          if validate cred then (⟨ResolveOutcome.ok, 0⟩, s)
          else (⟨ResolveOutcome.errClient, 0⟩, s) := by
  cases hm : getLongestMatchingCredential s.credential path with
  | none =>
      simp [getFileSystemAux, loadCredential, h, hm, returnErrorOrReload]
  | some cred =>
      by_cases hv : validate cred = true
      · simp [getFileSystemAux, loadCredential, h, hm, hv, returnErrorOrReload]
      · simp [getFileSystemAux, loadCredential, h, hm, hv, returnErrorOrReload]

/-- Claim C2 (amended): resolution terminates with recursion depth at
most 1 (fuel 2 never runs out and at most one flush-reload happens);
when matching fails against an already-cached table the NOT_FOUND
error is propagated immediately with no reload; the flush-reload and
single retry happen when matching fails right after a fresh
(non-cached) load, and the retry's failure is propagated without any
further reload. -/
theorem getFileSystem_bounded_retry {α : Type} (validate : α → Bool)
    (legacyOk : Bool) (env : CredEnv α) (path : Str) (s : CredState α) :
    ((getFileSystemAux validate legacyOk env path 2 s).1.outcome ≠
        ResolveOutcome.outOfFuel ∧
      (getFileSystemAux validate legacyOk env path 2 s).1.reloads ≤ 1) ∧
    (s.isCredentialCached = true →
      getLongestMatchingCredential s.credential path = none →
      getFileSystemAux validate legacyOk env path 2 s =
        (⟨ResolveOutcome.errMatch, 0⟩, s)) ∧
    (∀ table, s.isCredentialCached = false →
      env.credFile = some (some table) →
      getLongestMatchingCredential (sortCredential table) path = none →
      getFileSystemAux validate legacyOk env path 2 s =
        (⟨ResolveOutcome.errMatch, 1⟩, ⟨true, sortCredential table⟩)) := by
  by_cases hcached : s.isCredentialCached = true
  · have hrw := getFileSystemAux_cached validate legacyOk env path 1 s hcached
    refine ⟨?_, fun _ hn => ?_, fun table hns _ _ => ?_⟩
    · rw [show (2 : Nat) = 1 + 1 from rfl, hrw]
      cases hm : getLongestMatchingCredential s.credential path with
      | none => exact ⟨by simp, by simp⟩
      | some cred =>
          by_cases hv : validate cred = true
          · exact ⟨by simp [hv], by simp [hv]⟩
          · exact ⟨by simp [hv], by simp [hv]⟩
    · rw [show (2 : Nat) = 1 + 1 from rfl, hrw, hn]
    · rw [hcached] at hns
      exact Bool.noConfusion hns
  · have hc : s.isCredentialCached = false := by
      cases h : s.isCredentialCached
      · rfl
      · exact absurd h hcached
    cases henv : env.credFile with
    | none =>
        refine ⟨⟨?_, ?_⟩, fun ht _ => absurd ht hcached,
          fun table _ he _ => Option.noConfusion he⟩
        · cases legacyOk <;>
            simp [getFileSystemAux, loadCredential, hc, henv]
        · cases legacyOk <;>
            simp [getFileSystemAux, loadCredential, hc, henv]
    | some ofile =>
        cases ofile with
        | none =>
            refine ⟨⟨?_, ?_⟩, fun ht _ => absurd ht hcached,
              fun table _ he _ => Option.noConfusion (Option.some.inj he)⟩
            · simp [getFileSystemAux, loadCredential, hc, henv]
            · simp [getFileSystemAux, loadCredential, hc, henv]
        | some table =>
            cases hm : getLongestMatchingCredential (sortCredential table)
                path with
            | none =>
                refine ⟨⟨?_, ?_⟩, fun ht _ => absurd ht hcached,
                  fun table' _ he hn => ?_⟩
                · simp [getFileSystemAux, loadCredential, hc, henv, hm,
                    returnErrorOrReload]
                · simp [getFileSystemAux, loadCredential, hc, henv, hm,
                    returnErrorOrReload]
                · have : table = table' :=
                    Option.some.inj (Option.some.inj he)
                  subst this
                  simp [getFileSystemAux, loadCredential, hc, henv, hm,
                    returnErrorOrReload]
            | some cred =>
                by_cases hv : validate cred = true
                · refine ⟨⟨?_, ?_⟩, fun ht _ => absurd ht hcached,
                    fun table' _ he hn => ?_⟩
                  · simp [getFileSystemAux, loadCredential, hc, henv, hm, hv]
                  · simp [getFileSystemAux, loadCredential, hc, henv, hm, hv]
                  · have : table = table' :=
                      Option.some.inj (Option.some.inj he)
                    subst this
                    rw [hm] at hn
                    exact Option.noConfusion hn
                · refine ⟨⟨?_, ?_⟩, fun ht _ => absurd ht hcached,
                    fun table' _ he hn => ?_⟩
                  · simp [getFileSystemAux, loadCredential, hc, henv, hm, hv,
                      returnErrorOrReload]
                  · simp [getFileSystemAux, loadCredential, hc, henv, hm, hv,
                      returnErrorOrReload]
                  · have : table = table' :=
                      Option.some.inj (Option.some.inj he)
                    subst this
                    rw [hm] at hn
                    exact Option.noConfusion hn

/-- Witness for the amended C2 theorem: a fresh (non-cached) state with
a credential file whose single entry does not match the path resolves
to the match error after exactly one flush-reload and one retry. -/
theorem getFileSystem_bounded_retry_witness :
    getFileSystemAux (fun (_ : Nat) => true) true
        ⟨some (some [(str "bucket", 0)])⟩ (str "zz") 2 ⟨false, []⟩ =
      (⟨ResolveOutcome.errMatch, 1⟩,
        ⟨true, sortCredential [(str "bucket", 0)]⟩) :=
  (getFileSystem_bounded_retry (fun (_ : Nat) => true) true
      ⟨some (some [(str "bucket", 0)])⟩ (str "zz") ⟨false, []⟩).2.2
    [(str "bucket", 0)] rfl rfl (by decide)

/-- Claim C2 counterexample: with the credential table already cached
(load status ALREADY_EXISTS) and a path no entry matches, resolution
returns the NOT_FOUND failure directly with zero flush-reloads and no
retry — the claimed reload-and-retry-once on a cached table does not
happen. -/
theorem getFileSystem_cached_counterexample :
    getFileSystemAux (fun (_ : Nat) => true) true
        ⟨some (some [(str "bucket", 0)])⟩ (str "other") 2
        ⟨true, [(str "bucket", 0)]⟩ =
      (⟨ResolveOutcome.errMatch, 0⟩, ⟨true, [(str "bucket", 0)]⟩) ∧
    getLongestMatchingCredential [((str "bucket" : Str), (0 : Nat))]
        (str "other") = none := by
  decide

/-- Claim C5: with the credential-file environment variable set to a
readable, parseable file and the cache initially empty, the first
LoadCredential(false) parses the file and caches the sorted tables;
the second LoadCredential(false), with no intervening flush, does not
touch the file, reports the ALREADY_EXISTS ("Cached") sentinel, and
leaves the state unchanged; and LoadCredential(true) always re-parses
the file and replaces the tables, whatever the current state. -/
theorem loadCredential_cache_spec {α : Type} (env : CredEnv α)
    (table : List (Str × α)) (s : CredState α)
    (henv : env.credFile = some (some table))
    (hfresh : s.isCredentialCached = false) :
    loadCredential env false s =
      (LoadStatus.success, ⟨true, sortCredential table⟩, true) ∧
    loadCredential env false (loadCredential env false s).2.1 =
      (LoadStatus.alreadyExists, ⟨true, sortCredential table⟩, false) ∧
    (∀ s' : CredState α, loadCredential env true s' =
      (LoadStatus.success, ⟨true, sortCredential table⟩, true)) := by
  refine ⟨?_, ?_, fun s' => ?_⟩
  · simp [loadCredential, hfresh, henv]
  · simp [loadCredential, hfresh, henv]
  · simp [loadCredential, henv]

/-- Witness for C5 at a concrete environment and table. -/
theorem loadCredential_cache_spec_witness :
    loadCredential (⟨some (some [(str "b", (0 : Nat))])⟩ : CredEnv Nat)
        false ⟨false, []⟩ =
      (LoadStatus.success, ⟨true, [(str "b", 0)]⟩, true) ∧
    loadCredential (⟨some (some [(str "b", (0 : Nat))])⟩ : CredEnv Nat)
        false ⟨true, [(str "b", 0)]⟩ =
      (LoadStatus.alreadyExists, ⟨true, [(str "b", 0)]⟩, false) := by
  have h := loadCredential_cache_spec
    (⟨some (some [(str "b", (0 : Nat))])⟩ : CredEnv Nat)
    [(str "b", 0)] ⟨false, []⟩ rfl rfl
  have hsort : sortCredential [((str "b" : Str), (0 : Nat))] =
      [(str "b", 0)] := by decide
  refine ⟨?_, ?_⟩
  · rw [h.1, hsort]
  · have h2 := h.2.1
    rw [h.1] at h2
    rw [hsort] at h2
    exact h2

theorem strFind_eq_zero_of_isPrefixOf (hay needle : Str)
    (h : needle.isPrefixOf hay = true) : strFind hay needle = some 0 := by
  have h0 : needle.isPrefixOf (hay.drop 0) = true := by
    simpa using h
  unfold strFind
  rw [List.range_succ_eq_map]
  exact List.find?_cons_of_pos _ h0

/-! ### C3 / C4 lemmas and theorems -/

theorem mem_foldl_insert (f : Str → Str) (l : List Str) (init : Finset Str)
    (x : Str) :
    x ∈ l.foldl (fun acc n => insert (f n) acc) init ↔
      x ∈ init ∨ ∃ n ∈ l, x = f n := by
  induction l generalizing init with
  | nil => simp
  | cons a t ih =>
      rw [List.foldl_cons, ih]
      simp only [Finset.mem_insert, List.mem_cons]
      constructor
      · rintro ((h | h) | ⟨n, hn, rfl⟩)
        · exact Or.inr ⟨a, Or.inl rfl, h⟩
        · exact Or.inl h
        · exact Or.inr ⟨n, Or.inr hn, rfl⟩
      · rintro (h | ⟨n, (rfl | hn), rfl⟩)
        · exact Or.inl (Or.inr h)
        · exact Or.inl (Or.inl rfl)
        · exact Or.inr ⟨n, hn, rfl⟩

theorem strFindFrom_at_length (s : Str) (needle : Str) (hn : needle ≠ []) :
    strFindFrom s needle s.length = none := by
  unfold strFindFrom strFind
  rw [List.drop_length]
  cases needle with
  | nil => exact absurd rfl hn
  | cons c cs => rfl

theorem extractItem_self (fullDir : Str) : extractItem fullDir fullDir = [] := by
  simp only [extractItem]
  rw [strFindFrom_at_length fullDir ['/'] (by decide)]
  exact List.drop_length _

theorem asDelimiterItems_marker_mem (keys : List Str) (pre : Str)
    (h : pre ∈ keys) : pre ∈ asDelimiterItems keys pre := by
  unfold asDelimiterItems
  apply List.mem_map.mpr
  refine ⟨pre, List.mem_filter.mpr ⟨h, ?_⟩, ?_⟩
  · apply (isPrefixOfIff _ _).mpr
    exact List.prefix_refl _
  · rw [strFindFrom_at_length pre ['/'] (by decide)]

/-- Claim C3 (amended): the GCS and S3 listings collect, with set
semantics, the extracted child name of every key under the slashed
prefix except a key equal to the prefix itself (the self-marker is
skipped, so an empty directory lists as the empty set), and the two are
the same function of the key list; the Azure listing applies the same
extraction to the delimiter-listing items but does not skip the
self-marker, which contributes an empty-string child.  On keys
dir/a, dir/b, dir/c/d under prefix dir/, all three backends yield
exactly the children a, b, c; on a directory holding only its
self-marker, GCS and S3 yield the empty set while Azure yields the
empty-string singleton. -/
theorem objectStoreListing_spec (keys : List Str) (dirPath : Str) (c : Str) :
    (c ∈ gcsGetDirectoryContents keys dirPath ↔
      ∃ k, k ∈ keys ∧ (appendSlash dirPath).isPrefixOf k = true ∧
        k ≠ appendSlash dirPath ∧
        c = extractItem (appendSlash dirPath) k) ∧
    s3GetDirectoryContents keys dirPath = gcsGetDirectoryContents keys dirPath ∧
    (appendSlash dirPath ∈ keys →
      ([] : Str) ∈ asGetDirectoryContents keys dirPath) ∧
    gcsGetDirectoryContents [str "dir/a", str "dir/b", str "dir/c/d"]
        (str "dir") = {str "a", str "b", str "c"} ∧
    s3GetDirectoryContents [str "dir/a", str "dir/b", str "dir/c/d"]
        (str "dir") = {str "a", str "b", str "c"} ∧
    asGetDirectoryContents [str "dir/a", str "dir/b", str "dir/c/d"]
        (str "dir") = {str "a", str "b", str "c"} ∧
    gcsGetDirectoryContents [str "dir/"] (str "dir") = ∅ ∧
    s3GetDirectoryContents [str "dir/"] (str "dir") = ∅ ∧
    asGetDirectoryContents [str "dir/"] (str "dir") = {str ""} := by
  refine ⟨?_, rfl, ?_, by decide, by decide, by decide, by decide, by decide,
    by decide⟩
  · unfold gcsGetDirectoryContents
    rw [mem_foldl_insert]
    constructor
    · rintro (h | ⟨n, hn, rfl⟩)
      · exact absurd h (Finset.not_mem_empty _)
      · rcases List.mem_filter.mp hn with ⟨hn1, hne⟩
        rcases List.mem_filter.mp hn1 with ⟨hk, hp⟩
        exact ⟨n, hk, hp, by simpa using hne, rfl⟩
    · rintro ⟨k, hk, hp, hne, rfl⟩
      refine Or.inr ⟨k, ?_, rfl⟩
      exact List.mem_filter.mpr ⟨List.mem_filter.mpr ⟨hk, hp⟩, by simpa using hne⟩
  · intro h
    unfold asGetDirectoryContents
    rw [List.mem_toFinset]
    apply List.mem_map.mpr
    exact ⟨appendSlash dirPath, asDelimiterItems_marker_mem keys _ h,
      extractItem_self _⟩

/-- Witness for the amended C3 theorem: instantiating the marker clause
on a container holding exactly the self-marker object dir/ shows the
Azure listing contains the empty-string child. -/
theorem objectStoreListing_spec_witness :
    ([] : Str) ∈ asGetDirectoryContents [str "dir/"] (str "dir") :=
  (objectStoreListing_spec [str "dir/"] (str "dir") []).2.2.1 (by decide)

/-- Claim C3 counterexample: a "directory" containing only its
self-marker key dir/ lists as the empty set on GCS but as the
empty-string singleton on Azure — ASFileSystem::ListDirectory does not
skip the key equal to the prefix, contradicting the claim that every
object-store backend skips it and that such a directory lists as the
empty set. -/
theorem asListing_selfMarker_counterexample :
    asGetDirectoryContents [str "dir/"] (str "dir") = {str ""} ∧
    asGetDirectoryContents [str "dir/"] (str "dir") ≠ ∅ ∧
    gcsGetDirectoryContents [str "dir/"] (str "dir") = ∅ := by
  decide

theorem asIsDirectory_eq_any (keys : List Str) (objectPath : Str) :
    asIsDirectory keys objectPath = keys.any (objectPath.isPrefixOf ·) := by
  unfold asIsDirectory asDelimiterItems
  cases h : keys.any (objectPath.isPrefixOf ·) with
  | true =>
      rcases List.any_eq_true.mp h with ⟨k, hk, hp⟩
      have : (keys.filter (objectPath.isPrefixOf ·)) ≠ [] := by
        intro hnil
        have := List.mem_filter.mpr ⟨hk, hp⟩
        rw [hnil] at this
        exact List.not_mem_nil _ this
      cases hf : keys.filter (objectPath.isPrefixOf ·) with
      | nil => exact absurd hf this
      | cons a t => rfl
  | false =>
      have : (keys.filter (objectPath.isPrefixOf ·)) = [] := by
        apply List.filter_eq_nil_iff.mpr
        intro a ha hp
        have := List.any_eq_true.mpr ⟨a, ha, hp⟩
        rw [h] at this
        exact Bool.noConfusion this
      rw [this]
      rfl

/-- Claim C4 (amended): for GCS and S3, IsDirectory matches the claim
exactly whenever the bucket exists — true iff the object path is empty
(root case) or a listing under the slash-normalized prefix has at least
one entry — and is the bucket-missing error otherwise, the two being
the same function of the key list; the Azure IsDirectory instead
returns true iff some key extends the RAW object path (no trailing
slash appended and no container or empty-path special case), so a key
that merely extends the path in the middle of a segment, or the path's
own plain blob, already counts as a directory. -/
theorem isDirectory_spec (keys : List Str) (bucketExists : Bool)
    (objectPath : Str) :
    (bucketExists = true →
      gcsIsDirectory keys bucketExists objectPath =
        Except.ok (isDirectorySpecModel keys bucketExists objectPath)) ∧
    (bucketExists = false →
      gcsIsDirectory keys bucketExists objectPath =
        Except.error CloudErr.bucketErr) ∧
    s3IsDirectory keys bucketExists objectPath =
      gcsIsDirectory keys bucketExists objectPath ∧
    asIsDirectory keys objectPath = keys.any (objectPath.isPrefixOf ·) := by
  refine ⟨?_, ?_, rfl, asIsDirectory_eq_any keys objectPath⟩
  · intro h
    by_cases hp : objectPath = [] <;>
      simp [gcsIsDirectory, isDirectorySpecModel, h, hp]
  · intro h
    simp [gcsIsDirectory, h]

/-- Witness for the amended C4 theorem at a concrete bucket. -/
theorem isDirectory_spec_witness :
    gcsIsDirectory [str "dir/a"] true (str "dir") = Except.ok true ∧
    gcsIsDirectory [str "dir/a"] false (str "dir") =
      Except.error CloudErr.bucketErr := by
  have h := isDirectory_spec [str "dir/a"] true (str "dir")
  have h' := isDirectory_spec [str "dir/a"] false (str "dir")
  refine ⟨?_, h'.2.1 rfl⟩
  rw [h.1 rfl]
  rfl

/-- Claim C4 counterexample: on a container whose only key is ab, the
Azure IsDirectory of path a is true (the one-item listing under the raw
prefix a sees ab), while the claimed characterization — a listing under
the normalized prefix a/ non-empty, or the container exists and the
path is empty — is false; GCS on the same data follows the claim. -/
theorem asIsDirectory_counterexample :
    asIsDirectory [str "ab"] (str "a") = true ∧
    isDirectorySpecModel [str "ab"] true (str "a") = false ∧
    gcsIsDirectory [str "ab"] true (str "a") = Except.ok false := by
  exact ⟨by decide, by decide, rfl⟩

theorem exceptUnit_not_ok (v : Except CloudErr Unit)
    (h : v ≠ Except.ok ()) : ∃ e, v = Except.error e := by
  cases v with
  | error e => exact ⟨e, rfl⟩
  | ok u => cases u; exact absurd rfl h

/-- Claim C6: on each remote backend (GCS, S3, Azure),
LocalizeDirectory proceeds past its guard to create the temporary
directory and mirror the tree exactly when FileExists and IsDirectory
both report true; whenever that precondition fails it returns a
failure, and when the two probes themselves succeed (returning plain
booleans that are not both true) the failure is precisely the
"directory does not exist" error. -/
theorem localizeDirectory_precondition (keys : List Str)
    (bucketExists : Bool) (objectPath : Str) :
    (gcsLocalizeCheck keys bucketExists objectPath = Except.ok () ↔
      (gcsFileExists keys bucketExists objectPath = Except.ok true ∧
        gcsIsDirectory keys bucketExists objectPath = Except.ok true)) ∧
    (∀ ex isd, gcsFileExists keys bucketExists objectPath = Except.ok ex →
      gcsIsDirectory keys bucketExists objectPath = Except.ok isd →
      (ex && isd) = false →
      gcsLocalizeCheck keys bucketExists objectPath =
        Except.error CloudErr.dirNotExist) ∧
    (s3LocalizeCheck keys bucketExists objectPath = Except.ok () ↔
      (s3FileExists keys bucketExists objectPath = Except.ok true ∧
        s3IsDirectory keys bucketExists objectPath = Except.ok true)) ∧
    (∀ ex isd, s3FileExists keys bucketExists objectPath = Except.ok ex →
      s3IsDirectory keys bucketExists objectPath = Except.ok isd →
      (ex && isd) = false →
      s3LocalizeCheck keys bucketExists objectPath =
        Except.error CloudErr.dirNotExist) ∧
    (asLocalizeCheck keys objectPath = Except.ok () ↔
      (asFileExists keys objectPath = true ∧
        asIsDirectory keys objectPath = true)) ∧
    ((asFileExists keys objectPath && asIsDirectory keys objectPath) = false →
      asLocalizeCheck keys objectPath = Except.error CloudErr.dirNotExist) := by
  refine ⟨?_, ?_, ?_, ?_, ?_, ?_⟩
  · unfold gcsLocalizeCheck
    cases hex : gcsFileExists keys bucketExists objectPath with
    | error e =>
        constructor
        · intro h
          exact Except.noConfusion
            (show (Except.error e : Except CloudErr Unit) = Except.ok ()
              from h)
        · rintro ⟨h1, _⟩
          exact Except.noConfusion h1
    | ok ex =>
        cases ex with
        | false =>
            constructor
            · intro h
              exact Except.noConfusion
                (show (Except.error CloudErr.dirNotExist :
                    Except CloudErr Unit) = Except.ok () from h)
            · rintro ⟨h1, _⟩
              exact Bool.noConfusion (Except.ok.inj h1)
        | true =>
            cases hisd : gcsIsDirectory keys bucketExists objectPath with
            | error e =>
                constructor
                · intro h
                  exact Except.noConfusion
                    (show (Except.error e : Except CloudErr Unit) =
                      Except.ok () from h)
                · rintro ⟨_, h2⟩
                  exact Except.noConfusion h2
            | ok isd =>
                cases isd with
                | true => exact ⟨fun _ => ⟨rfl, rfl⟩, fun _ => rfl⟩
                | false =>
                    constructor
                    · intro h
                      exact Except.noConfusion
                        (show (Except.error CloudErr.dirNotExist :
                            Except CloudErr Unit) = Except.ok () from h)
                    · rintro ⟨_, h2⟩
                      exact Bool.noConfusion (Except.ok.inj h2)
  · intro ex isd h1 h2 hb
    unfold gcsLocalizeCheck
    rw [h1, h2]
    cases ex with
    | false => rfl
    | true =>
        cases isd with
        | false => rfl
        | true => exact Bool.noConfusion hb
  · unfold s3LocalizeCheck
    cases hex : s3FileExists keys bucketExists objectPath with
    | error e =>
        constructor
        · intro h
          exact Except.noConfusion
            (show (Except.error e : Except CloudErr Unit) = Except.ok ()
              from h)
        · rintro ⟨h1, _⟩
          exact Except.noConfusion h1
    | ok ex =>
        cases ex with
        | false =>
            constructor
            · intro h
              exact Except.noConfusion
                (show (Except.error CloudErr.dirNotExist :
                    Except CloudErr Unit) = Except.ok () from h)
            · rintro ⟨h1, _⟩
              exact Bool.noConfusion (Except.ok.inj h1)
        | true =>
            cases hisd : s3IsDirectory keys bucketExists objectPath with
            | error e =>
                constructor
                · intro h
                  exact Except.noConfusion
                    (show (Except.error e : Except CloudErr Unit) =
                      Except.ok () from h)
                · rintro ⟨_, h2⟩
                  exact Except.noConfusion h2
            | ok isd =>
                cases isd with
                | true => exact ⟨fun _ => ⟨rfl, rfl⟩, fun _ => rfl⟩
                | false =>
                    constructor
                    · intro h
                      exact Except.noConfusion
                        (show (Except.error CloudErr.dirNotExist :
                            Except CloudErr Unit) = Except.ok () from h)
                    · rintro ⟨_, h2⟩
                      exact Bool.noConfusion (Except.ok.inj h2)
  · intro ex isd h1 h2 hb
    unfold s3LocalizeCheck
    rw [h1, h2]
    cases ex with
    | false => rfl
    | true =>
        cases isd with
        | false => rfl
        | true => exact Bool.noConfusion hb
  · unfold asLocalizeCheck
    cases hex : asFileExists keys objectPath with
    | false =>
        constructor
        · intro h
          exact Except.noConfusion
            (show (Except.error CloudErr.dirNotExist : Except CloudErr Unit) =
              Except.ok () from h)
        · rintro ⟨h1, _⟩
          exact Bool.noConfusion h1
    | true =>
        cases hisd : asIsDirectory keys objectPath with
        | true => exact ⟨fun _ => ⟨rfl, rfl⟩, fun _ => rfl⟩
        | false =>
            constructor
            · intro h
              exact Except.noConfusion
                (show (Except.error CloudErr.dirNotExist :
                    Except CloudErr Unit) = Except.ok () from h)
            · rintro ⟨_, h2⟩
              exact Bool.noConfusion h2
  · intro hb
    unfold asLocalizeCheck
    cases hex : asFileExists keys objectPath with
    | false => rfl
    | true =>
        rw [hex] at hb
        cases hisd : asIsDirectory keys objectPath with
        | false => rfl
        | true =>
            rw [hisd] at hb
            exact Bool.noConfusion (show true = false from hb)

/-- Witness for C6: a bucket holding only dir/x: localizing dir
proceeds, localizing nope fails with the directory-does-not-exist
error on all three backends. -/
theorem localizeDirectory_precondition_witness :
    gcsLocalizeCheck [str "dir/x"] true (str "nope") =
      Except.error CloudErr.dirNotExist ∧
    s3LocalizeCheck [str "dir/x"] true (str "nope") =
      Except.error CloudErr.dirNotExist ∧
    asLocalizeCheck [str "dir/x"] (str "nope") =
      Except.error CloudErr.dirNotExist ∧
    gcsLocalizeCheck [str "dir/x"] true (str "dir") = Except.ok () := by
  have h := localizeDirectory_precondition [str "dir/x"] true (str "nope")
  have h' := localizeDirectory_precondition [str "dir/x"] true (str "dir")
  refine ⟨?_, ?_, ?_, ?_⟩
  · exact h.2.1 false false rfl rfl rfl
  · exact h.2.2.2.1 false false rfl rfl rfl
  · exact h.2.2.2.2.2 rfl
  · exact h'.1.mpr ⟨rfl, rfl⟩

/-- Claim C7 (amended): GCS and S3 report modification time 0 for every
path their IsDirectory accepts; the local backend instead reports the
stat mtime unchanged, directory bit or not; the Azure backend reports
the blob's last-modified time scaled to nanoseconds when a blob sits at
the exact path and an error otherwise, with no directory special
case. -/
theorem fileModificationTime_spec (objects : List (Str × Int))
    (bucketExists : Bool) (objectPath : Str) :
    (gcsIsDirectory (objects.map (·.1)) bucketExists objectPath =
        Except.ok true →
      gcsFileModificationTime objects bucketExists objectPath =
        Except.ok 0) ∧
    (s3IsDirectory (objects.map (·.1)) bucketExists objectPath =
        Except.ok true →
      s3FileModificationTime objects bucketExists objectPath =
        Except.ok 0) ∧
    (∀ isDirBit mtimeNs,
      localFileModificationTime (some (isDirBit, mtimeNs)) =
        Except.ok mtimeNs) ∧
    (∀ sec, objects.lookup objectPath = some sec →
      asFileModificationTime objects objectPath =
        Except.ok (sec * 1000000000)) ∧
    (objects.lookup objectPath = none →
      asFileModificationTime objects objectPath =
        Except.error CloudErr.metaErr) := by
  refine ⟨?_, ?_, fun _ _ => rfl, ?_, ?_⟩
  · intro h
    unfold gcsFileModificationTime
    rw [h]
  · intro h
    unfold s3FileModificationTime
    rw [h]
  · intro sec h
    unfold asFileModificationTime
    rw [h]
  · intro h
    unfold asFileModificationTime
    rw [h]

/-- Witness for the amended C7 theorem: a bucket with the single object
dir/a modified at 7: the directory dir reports 0 on GCS and S3, the
local backend reports the raw stat time even for a directory, and
Azure reports the scaled blob time for the blob but errors for the
directory path. -/
theorem fileModificationTime_spec_witness :
    gcsFileModificationTime [(str "dir/a", 7)] true (str "dir") =
      Except.ok 0 ∧
    s3FileModificationTime [(str "dir/a", 7)] true (str "dir") =
      Except.ok 0 ∧
    localFileModificationTime (some (true, 5)) = Except.ok 5 ∧
    asFileModificationTime [(str "dir/a", 7)] (str "dir/a") =
      Except.ok (7 * 1000000000) ∧
    asFileModificationTime [(str "dir/a", 7)] (str "dir") =
      Except.error CloudErr.metaErr := by
  have h := fileModificationTime_spec [(str "dir/a", 7)] true (str "dir")
  have h' := fileModificationTime_spec [(str "dir/a", 7)] true (str "dir/a")
  exact ⟨h.1 rfl, h.2.1 rfl, h.2.2.1 true 5, h'.2.2.2.1 7 rfl,
    h.2.2.2.2 rfl⟩

/-- Claim C7 counterexample: the local backend's modification time of a
directory (stat succeeds with the S_ISDIR bit set and st_mtim of 5 ns)
is the stat time 5, not the claimed 0; and the Azure backend errors on
a pseudo-directory (no blob at the path) instead of reporting 0. -/
theorem fileModificationTime_counterexample :
    localFileModificationTime (some (true, 5)) = Except.ok 5 ∧
    (5 : Int) ≠ 0 ∧
    asFileModificationTime [(str "dir/a", 7)] (str "dir") =
      Except.error CloudErr.metaErr := by
  refine ⟨rfl, by decide, rfl⟩

/-- Claim C8: on every non-empty path the classifier has no failure
path: it returns GCS for a gs:// prefix, S3 for an s3:// prefix, AS for
an as:// prefix — tested in that priority order — and LOCAL when none
of the three prefixes is present. -/
theorem getFileSystemType_spec (path : Str) (h : path ≠ []) :
    ∃ t, getFileSystemType path = Except.ok t ∧
      ((str "gs://").isPrefixOf path = true → t = FileSystemType.GCS) ∧
      ((str "gs://").isPrefixOf path = false →
        (str "s3://").isPrefixOf path = true → t = FileSystemType.S3) ∧
      ((str "gs://").isPrefixOf path = false →
        (str "s3://").isPrefixOf path = false →
        (str "as://").isPrefixOf path = true → t = FileSystemType.AS) ∧
      ((str "gs://").isPrefixOf path = false →
        (str "s3://").isPrefixOf path = false →
        (str "as://").isPrefixOf path = false →
        t = FileSystemType.LOCAL) := by
  unfold getFileSystemType
  rw [if_neg h]
  by_cases hg : (str "gs://").isPrefixOf path = true
  · rw [if_pos hg]
    exact ⟨FileSystemType.GCS, rfl, fun _ => rfl,
      fun hng _ => absurd hg (by rw [hng]; exact Bool.noConfusion),
      fun hng _ _ => absurd hg (by rw [hng]; exact Bool.noConfusion),
      fun hng _ _ => absurd hg (by rw [hng]; exact Bool.noConfusion)⟩
  · rw [if_neg hg]
    by_cases hs : (str "s3://").isPrefixOf path = true
    · rw [if_pos hs]
      exact ⟨FileSystemType.S3, rfl, fun hpg => absurd hpg hg,
        fun _ _ => rfl,
        fun _ hns _ => absurd hs (by rw [hns]; exact Bool.noConfusion),
        fun _ hns _ => absurd hs (by rw [hns]; exact Bool.noConfusion)⟩
    · rw [if_neg hs]
      by_cases ha : (str "as://").isPrefixOf path = true
      · rw [if_pos ha]
        exact ⟨FileSystemType.AS, rfl, fun hpg => absurd hpg hg,
          fun _ hps => absurd hps hs, fun _ _ _ => rfl,
          fun _ _ hna => absurd ha (by rw [hna]; exact Bool.noConfusion)⟩
      · rw [if_neg ha]
        exact ⟨FileSystemType.LOCAL, rfl, fun hpg => absurd hpg hg,
          fun _ hps => absurd hps hs, fun _ _ hpa => absurd hpa ha,
          fun _ _ _ => rfl⟩

/-- Witness for C8 at the spec's four example paths. -/
theorem getFileSystemType_spec_witness :
    getFileSystemType (str "gs://b/o") = Except.ok FileSystemType.GCS ∧
    getFileSystemType (str "s3://b/o") = Except.ok FileSystemType.S3 ∧
    getFileSystemType (str "as://acct.blob.core.windows.net/c/o") =
      Except.ok FileSystemType.AS ∧
    getFileSystemType (str "/tmp/x") = Except.ok FileSystemType.LOCAL := by
  refine ⟨?_, ?_, ?_, ?_⟩
  · obtain ⟨t, ht, hg, _, _, _⟩ :=
      getFileSystemType_spec (str "gs://b/o") (by decide)
    rw [ht, hg (by decide)]
  · obtain ⟨t, ht, _, hs, _, _⟩ :=
      getFileSystemType_spec (str "s3://b/o") (by decide)
    rw [ht, hs (by decide) (by decide)]
  · obtain ⟨t, ht, _, _, ha, _⟩ :=
      getFileSystemType_spec (str "as://acct.blob.core.windows.net/c/o")
        (by decide)
    rw [ht, ha (by decide) (by decide) (by decide)]
  · obtain ⟨t, ht, _, _, _, hl⟩ :=
      getFileSystemType_spec (str "/tmp/x") (by decide)
    rw [ht, hl (by decide) (by decide) (by decide)]

/-- Claim C9: localizing a local path yields a LocalizedDirectory with
no local path (and the original path kept, nothing copied); releasing
it is a no-op on the filesystem — the source directory is untouched —
and release performs the recursive delete of the temporary tree exactly
when a local path is present, and then deletes only paths under it. -/
theorem localLocalizeDirectory_spec (path : Str) (world : List Str) :
    (localLocalizeDirectory path).localPath = [] ∧
    (localLocalizeDirectory path).path = path ∧
    releaseLocalizedDirectory world (localLocalizeDirectory path) = world ∧
    (∀ ld : LocalizedDirectory, ld.localPath ≠ [] →
      releaseLocalizedDirectory world ld =
        deleteDirectoryModel world ld.localPath) ∧
    (∀ ld : LocalizedDirectory, ∀ p ∈ world,
      ¬ ld.localPath.isPrefixOf p = true →
      p ∈ releaseLocalizedDirectory world ld) := by
  refine ⟨rfl, rfl, rfl, ?_, ?_⟩
  · intro ld hne
    unfold releaseLocalizedDirectory
    rw [if_neg hne]
  · intro ld p hp hnp
    unfold releaseLocalizedDirectory
    by_cases h0 : ld.localPath = []
    · rw [if_pos h0]
      exact hp
    · rw [if_neg h0]
      unfold deleteDirectoryModel
      refine List.mem_filter.mpr ⟨hp, ?_⟩
      cases h : ld.localPath.isPrefixOf p with
      | false => rfl
      | true => exact absurd h hnp

/-- Witness for C9: releasing the in-place localization of /models
leaves a world containing /models/a unchanged, while releasing an
owned temporary /tmp/f1 deletes exactly the paths under it. -/
theorem localLocalizeDirectory_spec_witness :
    releaseLocalizedDirectory [str "/models/a", str "/tmp/f1/x"]
        (localLocalizeDirectory (str "/models")) =
      [str "/models/a", str "/tmp/f1/x"] ∧
    releaseLocalizedDirectory [str "/models/a", str "/tmp/f1/x"]
        ⟨str "/models", str "/tmp/f1"⟩ =
      deleteDirectoryModel [str "/models/a", str "/tmp/f1/x"]
        (str "/tmp/f1") ∧
    str "/models/a" ∈
      releaseLocalizedDirectory [str "/models/a", str "/tmp/f1/x"]
        ⟨str "/models", str "/tmp/f1"⟩ := by
  have h := localLocalizeDirectory_spec (str "/models")
    [str "/models/a", str "/tmp/f1/x"]
  refine ⟨h.2.2.1, h.2.2.2.1 ⟨str "/models", str "/tmp/f1"⟩ (by decide), ?_⟩
  exact h.2.2.2.2 ⟨str "/models", str "/tmp/f1"⟩ (str "/models/a")
    (by decide) (by decide)

/-- Claim C10: with skip_hidden_files the public GetDirectoryFiles
returns the backend's file set minus every name whose first character
is a dot, and without it the file set unchanged. -/
theorem getDirectoryFilesPublic_spec (allFiles : List Str) (f : Str) :
    (f ∈ getDirectoryFilesPublic allFiles true ↔
      f ∈ allFiles ∧ f.head? ≠ some '.') ∧
    (f ∈ getDirectoryFilesPublic allFiles false ↔ f ∈ allFiles) := by
  constructor
  · rw [getDirectoryFilesPublic, List.mem_toFinset, List.mem_filter]
    cases f with
    | nil => simp
    | cons c cs =>
        simp only [List.headD_cons, List.head?_cons, Bool.not_false,
          Bool.or_true, Bool.or_false, ne_eq, Option.some.injEq]
        constructor
        · rintro ⟨hm, hc⟩
          refine ⟨hm, fun hcd => ?_⟩
          rw [hcd] at hc
          simp at hc
        · rintro ⟨hm, hc⟩
          refine ⟨hm, ?_⟩
          simpa using hc
  · rw [getDirectoryFilesPublic, List.mem_toFinset, List.mem_filter]
    simp

end TritonFS

